import Mathlib

/-!
# Verification of the obs-svg drawing plugin

A shallow embedding, in Lean 4, of the core of the `obs-svg` plugin:

* the SVG document layer used by `InlineSVGEditor.save` / `loadSVGContent`
  (`XMLSerializer` output grammar and the `DOMParser` acting on it),
* the `DrawingToolbar` state machine (tool selection, pointer handlers,
  selection, eraser, keyboard deletion, and the bounded undo/redo history
  stack of `saveToHistory` / `undo` / `redo` / `restoreFromHistory`),
* the `EditorStateManager` single-active-session registry,
* the `InlineSVGEditor.save` error-handling path.

Strings are modelled as lists of characters (`Str`).  DOM attribute values
are stored as plain strings, exactly as they live on the DOM nodes the
source manipulates.  The Canvas Document is the ordered sequence of
drawable primitive elements of the `<svg>` root together with its
document-level attributes; the transient selection overlay rectangle is
modelled as Selection State (the source keeps it apart from the drawables
by object identity in `handleSelectClick` / `handleEraserClick`).
-/

/-- Strings modelled as character lists, so that parsing proofs can proceed
by structural induction. -/
abbrev Str := List Char

/-- A drawable primitive element: its tag (`path`, `line`, `rect`,
`circle`) and its attribute list, in DOM order. -/
structure Prim where
  tag : Str
  attrs : List (Str × Str)
deriving DecidableEq, Repr

/-- The Canvas Document: the `<svg>` root's attributes and its ordered
sequence of drawable primitive children. -/
structure Doc where
  rootAttrs : List (Str × Str)
  children : List Prim
deriving DecidableEq, Repr

/-! ## Serialization (the `XMLSerializer` output grammar) -/

/-- Characters allowed in XML names as the serializer emits them. -/
def isNameChar (c : Char) : Bool :=
  c.isAlpha || c.isDigit || c == '-' || c == '_' || c == ':'

/-- One serialized attribute: a leading space, the name, `="`, the value,
and a closing quote. -/
def serializeAttr (a : Str × Str) : Str :=
  ' ' :: (a.1 ++ '=' :: '"' :: (a.2 ++ ['"']))

/-- All attributes of an element, in order. -/
def serializeAttrs : List (Str × Str) → Str
  | [] => []
  | a :: as => serializeAttr a ++ serializeAttrs as

/-- A serialized child element; the four primitive kinds have no children
and serialize as self-closing tags. -/
def serializePrim (p : Prim) : Str :=
  '<' :: (p.tag ++ serializeAttrs p.attrs ++ ['/', '>'])

/-- The serialized child sequence. -/
def serializeChildren : List Prim → Str
  | [] => []
  | p :: ps => serializePrim p ++ serializeChildren ps

def svgTag : Str := ['s', 'v', 'g']

def closeSvg : Str := ['<', '/', 's', 'v', 'g', '>']

/-- Serialization of the whole document, as `XMLSerializer` produces it:
a childless root is emitted self-closing. -/
def serializeDoc (d : Doc) : Str :=
  '<' :: (svgTag ++ serializeAttrs d.rootAttrs ++
    (if d.children.isEmpty then ['/', '>']
     else '>' :: (serializeChildren d.children ++ closeSvg)))

/-! ## Well-formedness

The serializer/parser pair inverts on documents whose names are nonempty
name-character strings and whose attribute values contain no quote
character: exactly the shapes the plugin's DOM manipulation produces. -/

/-- A well-formed XML name. -/
def NameOK (n : Str) : Prop := n ≠ [] ∧ ∀ c ∈ n, isNameChar c = true

instance (n : Str) : Decidable (NameOK n) := by unfold NameOK; infer_instance

/-- A well-formed attribute: a good name and a quote-free value. -/
def AttrOK (a : Str × Str) : Prop := NameOK a.1 ∧ ∀ c ∈ a.2, c ≠ '"'

instance (a : Str × Str) : Decidable (AttrOK a) := by unfold AttrOK; infer_instance

/-- A well-formed primitive element. -/
def Prim.WF (p : Prim) : Prop := NameOK p.tag ∧ ∀ a ∈ p.attrs, AttrOK a

instance (p : Prim) : Decidable p.WF := by unfold Prim.WF; infer_instance

/-- A well-formed Canvas Document. -/
def Doc.WF (d : Doc) : Prop :=
  (∀ a ∈ d.rootAttrs, AttrOK a) ∧ ∀ p ∈ d.children, p.WF

instance (d : Doc) : Decidable d.WF := by unfold Doc.WF; infer_instance

/-! ## Parsing (the `DOMParser` on the serializer's output grammar) -/

/-- Split a leading XML name from the input. -/
def parseName (cs : Str) : Str × Str :=
  (cs.takeWhile isNameChar, cs.dropWhile isNameChar)

/-- Parse one `name="value"` attribute (the leading space has already been
consumed by `parseAttrs`). -/
def parseAttr (cs : Str) : Option ((Str × Str) × Str) :=
  let n := (parseName cs).1
  let rest := (parseName cs).2
  if n = [] then none
  else
    match rest with
    | '=' :: '"' :: rest2 =>
      let v := rest2.takeWhile (fun c => c != '"')
      match rest2.dropWhile (fun c => c != '"') with
      | '"' :: rest3 => some ((n, v), rest3)
      | _ => none
    | _ => none

/-- Parse a (possibly empty) run of attributes, each introduced by a
space; stops at the first non-space character.  Fuel bounds recursion. -/
def parseAttrs : Nat → Str → Option (List (Str × Str) × Str)
  | 0, _ => none
  | fuel + 1, cs =>
    if cs.head? = some ' ' then
      match parseAttr cs.tail with
      | some (a, rest2) =>
        match parseAttrs fuel rest2 with
        | some (as, rest3) => some (a :: as, rest3)
        | none => none
      | none => none
    else some ([], cs)

/-- Parse one self-closing child element `<tag a="v".../>`. -/
def parsePrim (cs : Str) : Option (Prim × Str) :=
  if cs.head? = some '<' then
    let tg := (parseName cs.tail).1
    let rest1 := (parseName cs.tail).2
    if tg = [] then none
    else
      match parseAttrs (rest1.length + 1) rest1 with
      | some (as, rest2) =>
        match rest2 with
        | '/' :: '>' :: rest3 => some (⟨tg, as⟩, rest3)
        | _ => none
      | none => none
  else none

/-- Parse the child sequence of the root; stops at a closing tag. -/
def parseChildren : Nat → Str → Option (List Prim × Str)
  | 0, _ => none
  | fuel + 1, cs =>
    if cs.head? = some '<' then
      if cs.tail.head? = some '/' then some ([], cs)
      else
        match parsePrim cs with
        | some (p, rest2) =>
          match parseChildren fuel rest2 with
          | some (ps, rest3) => some (p :: ps, rest3)
          | none => none
        | none => none
    else none

/-- Skip an optional leading XML declaration (`<?xml ...?>`). -/
def skipHeader (cs : Str) : Str :=
  match cs with
  | '<' :: '?' :: rest =>
    match rest.dropWhile (fun c => c != '>') with
    | '>' :: rest2 => rest2
    | _ => []
  | _ => cs

/-- Skip leading whitespace. -/
def skipWS (cs : Str) : Str :=
  cs.dropWhile (fun c => c == ' ' || c == '\n' || c == '\t' || c == '\r')

/-- Parse a whole document: header, root `<svg>` element with attributes,
children, closing tag.  This is the `DOMParser` followed by
`querySelector('svg')`, restricted to the serializer's output grammar;
`none` models the parse-error document in which no `svg` node is found. -/
def parseDoc (input : Str) : Option Doc :=
  let cs := skipWS (skipHeader input)
  if cs.head? = some '<' then
    let tg := (parseName cs.tail).1
    let rest1 := (parseName cs.tail).2
    if tg = svgTag then
      match parseAttrs (rest1.length + 1) rest1 with
      | some (as, rest2) =>
        match rest2 with
        | '/' :: '>' :: rest3 => if rest3 = [] then some ⟨as, []⟩ else none
        | '>' :: rest3 =>
          match parseChildren (rest3.length + 1) rest3 with
          | some (ps, rest4) => if rest4 = closeSvg then some ⟨as, ps⟩ else none
          | none => none
        | _ => none
      | none => none
    else none
  else none

/-! ## Round-trip lemmas -/

theorem takeWhile_append_of {p : Char → Bool} :
    ∀ (l r : Str), (∀ c ∈ l, p c = true) → (∀ c, r.head? = some c → p c = false) →
      (l ++ r).takeWhile p = l ∧ (l ++ r).dropWhile p = r := by
  intro l r hl hr
  induction l with
  | nil =>
    simp only [List.nil_append]
    cases r with
    | nil => simp [List.takeWhile, List.dropWhile]
    | cons c cr =>
      have : p c = false := hr c rfl
      simp [List.takeWhile, List.dropWhile, this]
  | cons c cl ih =>
    have hc : p c = true := hl c (by simp)
    have := ih (fun x hx => hl x (by simp [hx]))
    simp [List.takeWhile, List.dropWhile, hc, this.1, this.2]

theorem parseName_round (n rest : Str) (hn : ∀ c ∈ n, isNameChar c = true)
    (hr : ∀ c, rest.head? = some c → isNameChar c = false) :
    parseName (n ++ rest) = (n, rest) := by
  have := takeWhile_append_of n rest hn hr
  simp [parseName, this.1, this.2]

theorem parseAttr_round (a : Str × Str) (rest : Str) (ha : AttrOK a) :
    parseAttr (a.1 ++ '=' :: '"' :: (a.2 ++ ['"']) ++ rest) = some (a, rest) := by
  obtain ⟨⟨hne, hnc⟩, hv⟩ := ha
  have hname : parseName (a.1 ++ '=' :: '"' :: (a.2 ++ ['"']) ++ rest) =
      (a.1, '=' :: '"' :: (a.2 ++ ['"']) ++ rest) := by
    have : a.1 ++ '=' :: '"' :: (a.2 ++ ['"']) ++ rest =
        a.1 ++ ('=' :: '"' :: (a.2 ++ ['"']) ++ rest) := by simp
    rw [this]
    exact parseName_round a.1 _ hnc (by intro c hc; simp at hc; rw [← hc]; decide)
  have hval := takeWhile_append_of (p := fun c => c != '"') a.2 ('"' :: rest)
    (by intro c hc; simpa using hv c hc) (by intro c hc; simp at hc; rw [← hc]; simp)
  simp only [parseAttr, hname]
  rw [if_neg hne]
  have hshape : ('=' :: '"' :: (a.2 ++ ['"']) ++ rest) =
      '=' :: '"' :: (a.2 ++ '"' :: rest) := by simp
  rw [hshape]
  simp [hval.1, hval.2]

theorem length_serializeAttrs_ge (as : List (Str × Str)) :
    as.length ≤ (serializeAttrs as).length := by
  induction as with
  | nil => simp [serializeAttrs]
  | cons a as ih =>
    simp only [serializeAttrs, serializeAttr, List.length_append, List.length_cons]
    omega

theorem parseAttrs_round :
    ∀ (fuel : Nat) (as : List (Str × Str)) (rest : Str), as.length < fuel →
      (∀ a ∈ as, AttrOK a) → (∀ c, rest.head? = some c → c ≠ ' ') →
      parseAttrs fuel (serializeAttrs as ++ rest) = some (as, rest) := by
  intro fuel
  induction fuel with
  | zero => intro as rest h; omega
  | succ fuel ih =>
    intro as rest hlen hwf hrest
    cases as with
    | nil =>
      simp only [serializeAttrs, List.nil_append, parseAttrs]
      cases rest with
      | nil => simp
      | cons c cr =>
        have : c ≠ ' ' := hrest c rfl
        simp [this]
    | cons a as =>
      have hhead : (serializeAttrs (a :: as) ++ rest).head? = some ' ' := by
        simp [serializeAttrs, serializeAttr]
      simp only [parseAttrs, hhead, if_pos]
      have htail : (serializeAttrs (a :: as) ++ rest).tail =
          a.1 ++ '=' :: '"' :: (a.2 ++ ['"']) ++ (serializeAttrs as ++ rest) := by
        simp [serializeAttrs, serializeAttr]
      have hrec := ih as rest (by simp at hlen; omega)
        (fun x hx => hwf x (by simp [hx])) hrest
      rw [htail, parseAttr_round a _ (hwf a (by simp))]
      simp [hrec]


theorem head?_serializeAttrs_append (as : List (Str × Str)) (r : Str) (c : Char)
    (h : (serializeAttrs as ++ r).head? = some c) : c = ' ' ∨ r.head? = some c := by
  cases as with
  | nil => right; simpa [serializeAttrs] using h
  | cons a as =>
    left
    simp [serializeAttrs, serializeAttr] at h
    exact h.symm

theorem parsePrim_round (p : Prim) (rest : Str) (hp : p.WF) :
    parsePrim (serializePrim p ++ rest) = some (p, rest) := by
  obtain ⟨⟨hne, hnc⟩, hattrs⟩ := hp
  have hshape : serializePrim p ++ rest =
      '<' :: (p.tag ++ (serializeAttrs p.attrs ++ '/' :: '>' :: rest)) := by
    simp [serializePrim]
  rw [hshape]
  have hname : parseName (p.tag ++ (serializeAttrs p.attrs ++ '/' :: '>' :: rest)) =
      (p.tag, serializeAttrs p.attrs ++ '/' :: '>' :: rest) := by
    refine parseName_round _ _ hnc ?_
    intro c hc
    rcases head?_serializeAttrs_append _ _ _ hc with h | h
    · rw [h]; decide
    · simp at h; rw [← h]; decide
  have hattrs2 : parseAttrs ((serializeAttrs p.attrs ++ '/' :: '>' :: rest).length + 1)
      (serializeAttrs p.attrs ++ '/' :: '>' :: rest) = some (p.attrs, '/' :: '>' :: rest) := by
    refine parseAttrs_round _ _ _ ?_ hattrs ?_
    · have := length_serializeAttrs_ge p.attrs
      simp only [List.length_append, List.length_cons]
      omega
    · intro c hc; simp at hc; rw [← hc]; decide
  simp only [parsePrim, List.head?_cons, List.tail_cons, if_true]
  simp only [hname]
  rw [if_neg hne, hattrs2]
  rfl

theorem parseChildren_round :
    ∀ (fuel : Nat) (ps : List Prim) (r : Str), ps.length < fuel →
      (∀ p ∈ ps, p.WF) →
      parseChildren fuel (serializeChildren ps ++ '<' :: '/' :: r) =
        some (ps, '<' :: '/' :: r) := by
  intro fuel
  induction fuel with
  | zero => intro ps r h; omega
  | succ fuel ih =>
    intro ps r hlen hwf
    cases ps with
    | nil => simp [serializeChildren, parseChildren]
    | cons p ps =>
      obtain ⟨⟨hne, hnc⟩, _⟩ := hwf p (by simp)
      obtain ⟨c, cs, hcs⟩ : ∃ c cs, p.tag = c :: cs := by
        cases h : p.tag with
        | nil => exact absurd h hne
        | cons c cs => exact ⟨c, cs, rfl⟩
      have hc : isNameChar c = true := hnc c (by simp [hcs])
      have hcne : c ≠ '/' := by
        intro h; rw [h] at hc; simp [isNameChar] at hc
      have hshape : serializeChildren (p :: ps) ++ '<' :: '/' :: r =
          '<' :: c :: (cs ++ (serializeAttrs p.attrs ++ '/' :: '>' ::
            (serializeChildren ps ++ '<' :: '/' :: r))) := by
        simp [serializeChildren, serializePrim, hcs]
      have hp2 : parsePrim (serializeChildren (p :: ps) ++ '<' :: '/' :: r) =
          some (p, serializeChildren ps ++ '<' :: '/' :: r) := by
        have h2 : serializeChildren (p :: ps) ++ '<' :: '/' :: r =
            serializePrim p ++ (serializeChildren ps ++ '<' :: '/' :: r) := by
          simp [serializeChildren]
        rw [h2]
        exact parsePrim_round p _ (hwf p (by simp))
      have hrec := ih ps r (by simp at hlen; omega) (fun x hx => hwf x (by simp [hx]))
      rw [hshape] at hp2 ⊢
      simp only [parseChildren, List.head?_cons, List.tail_cons, if_true]
      rw [if_neg (by simp [hcne]), hp2]
      simp [hrec]

def xmlHeaderMid : Str :=
  ['x', 'm', 'l', ' ', 'v', 'e', 'r', 's', 'i', 'o', 'n', '=', '"', '1', '.', '0', '"',
   ' ', 'e', 'n', 'c', 'o', 'd', 'i', 'n', 'g', '=', '"', 'U', 'T', 'F', '-', '8', '"', '?']

/-- The fixed XML declaration `save()` prepends. -/
def xmlHeader : Str := '<' :: '?' :: (xmlHeaderMid ++ ['>'])

/-- `save()`'s serialized file content: the XML declaration, a newline, and
the serialized document (`inline-svg-editor.ts` lines 180-185). -/
def serializeWithHeader (d : Doc) : Str := xmlHeader ++ '\n' :: serializeDoc d

/-- `loadSVGContent` (`inline-svg-editor.ts` lines 110-124): parse the file
content and locate the `svg` root; `none` models the "Invalid SVG content"
branch. -/
def loadSVGContent (content : Str) : Option Doc := parseDoc content

theorem skipHeader_header (r : Str) : skipHeader (xmlHeader ++ r) = r := by
  have hdrop : (xmlHeaderMid ++ '>' :: r).dropWhile (fun c => c != '>') = '>' :: r := by
    have := takeWhile_append_of (p := fun c => c != '>') xmlHeaderMid ('>' :: r)
      (by decide) (by intro c hc; simp at hc; rw [← hc]; simp)
    simpa using this.2
  simp only [xmlHeader, List.cons_append, List.append_assoc, List.singleton_append,
    List.nil_append]
  simp only [skipHeader, hdrop]

theorem skipWS_newline_lt (r : Str) : skipWS ('\n' :: '<' :: r) = '<' :: r := by
  simp [skipWS, List.dropWhile]

theorem length_serializeChildren_ge (ps : List Prim) :
    ps.length ≤ (serializeChildren ps).length := by
  induction ps with
  | nil => simp [serializeChildren]
  | cons p ps ih =>
    simp only [serializeChildren, serializePrim, List.length_append, List.length_cons]
    omega

/-- Parsing any input that reduces, after header and whitespace skipping,
to the serialization of a well-formed Canvas Document recovers the
document exactly. -/
theorem parseDoc_of_skips (input : Str) (d : Doc)
    (hskip0 : skipWS (skipHeader input) = serializeDoc d) (h : d.WF) :
    parseDoc input = some d := by
  obtain ⟨ra, kids⟩ := d
  obtain ⟨hroot, hkids⟩ := h
  simp only at hroot hkids
  have hskip : skipWS (skipHeader input) = serializeDoc ⟨ra, kids⟩ := hskip0
  cases kids with
  | nil =>
    have hbody : serializeDoc ⟨ra, []⟩ =
        '<' :: (svgTag ++ (serializeAttrs ra ++ ['/', '>'])) := by
      simp [serializeDoc]
    have hname : parseName (svgTag ++ (serializeAttrs ra ++ ['/', '>'])) =
        (svgTag, serializeAttrs ra ++ ['/', '>']) := by
      refine parseName_round _ _ (by decide) ?_
      intro c hc
      rcases head?_serializeAttrs_append _ _ _ hc with h | h
      · rw [h]; decide
      · simp at h; rw [← h]; decide
    have hattrs : parseAttrs ((serializeAttrs ra ++ ['/', '>']).length + 1)
        (serializeAttrs ra ++ ['/', '>']) = some (ra, ['/', '>']) := by
      refine parseAttrs_round _ _ _ ?_ hroot ?_
      · have := length_serializeAttrs_ge ra
        simp only [List.length_append, List.length_cons]
        omega
      · intro c hc; simp at hc; rw [← hc]; decide
    simp only [parseDoc, hskip, hbody, List.head?_cons, List.tail_cons, if_true]
    simp only [hname]
    simp only [if_true]
    rw [hattrs]
    rfl
  | cons k ks =>
    have hbody : serializeDoc ⟨ra, k :: ks⟩ =
        '<' :: (svgTag ++ (serializeAttrs ra ++
          '>' :: (serializeChildren (k :: ks) ++ closeSvg))) := by
      simp [serializeDoc]
    have hname : parseName (svgTag ++ (serializeAttrs ra ++
        '>' :: (serializeChildren (k :: ks) ++ closeSvg))) =
        (svgTag, serializeAttrs ra ++ '>' :: (serializeChildren (k :: ks) ++ closeSvg)) := by
      refine parseName_round _ _ (by decide) ?_
      intro c hc
      rcases head?_serializeAttrs_append _ _ _ hc with h | h
      · rw [h]; decide
      · simp at h; rw [← h]; decide
    have hattrs : parseAttrs ((serializeAttrs ra ++
        '>' :: (serializeChildren (k :: ks) ++ closeSvg)).length + 1)
        (serializeAttrs ra ++ '>' :: (serializeChildren (k :: ks) ++ closeSvg)) =
        some (ra, '>' :: (serializeChildren (k :: ks) ++ closeSvg)) := by
      refine parseAttrs_round _ _ _ ?_ hroot ?_
      · have := length_serializeAttrs_ge ra
        simp only [List.length_append, List.length_cons]
        omega
      · intro c hc; simp at hc; rw [← hc]; decide
    have hchild : parseChildren ((serializeChildren (k :: ks) ++ closeSvg).length + 1)
        (serializeChildren (k :: ks) ++ closeSvg) = some (k :: ks, closeSvg) := by
      have hlen : (k :: ks).length < (serializeChildren (k :: ks) ++ closeSvg).length + 1 := by
        have := length_serializeChildren_ge (k :: ks)
        simp only [List.length_append]
        omega
      have := parseChildren_round ((serializeChildren (k :: ks) ++ closeSvg).length + 1)
        (k :: ks) (['s', 'v', 'g', '>'] : Str) hlen hkids
      simpa [closeSvg] using this
    simp only [parseDoc, hskip, hbody, List.head?_cons, List.tail_cons, if_true]
    simp only [hname]
    simp only [if_true]
    rw [hattrs]
    simp only [hchild]
    simp only [if_true]

/-- **Round-trip with header**: parsing the saved serialization of any
well-formed Canvas Document recovers the document exactly (same ordered
primitive sequence, same document attributes). -/
theorem parse_serializeWithHeader (d : Doc) (h : d.WF) :
    parseDoc (serializeWithHeader d) = some d := by
  refine parseDoc_of_skips _ d ?_ h
  rw [serializeWithHeader, skipHeader_header]
  have hcons : serializeDoc d = '<' :: (serializeDoc d).tail := by
    simp [serializeDoc]
  rw [hcons, skipWS_newline_lt, ← hcons]

/-- **Round-trip without header**: history snapshots carry no XML
declaration; parsing them also recovers the document. -/
theorem parse_serializeDoc (d : Doc) (h : d.WF) :
    parseDoc (serializeDoc d) = some d := by
  refine parseDoc_of_skips _ d ?_ h
  have hcons : serializeDoc d = '<' :: 's' :: ('v' :: 'g' ::
      (serializeAttrs d.rootAttrs ++
        (if d.children.isEmpty then ['/', '>']
         else '>' :: (serializeChildren d.children ++ closeSvg)))) := by
    simp [serializeDoc, svgTag]
  rw [hcons]
  rfl

/-! ## The Drawing Toolbar state machine (`drawing-toolbar.ts`)

Elements carry a numeric identity (`Nat`) standing for DOM object
identity.  The selection overlay rectangle is a real child of the
`svgElement` (`selectElement` appends it, `clearSelection` removes it by
object identity), so it is part of the content that `saveToHistory` and
`save()` serialize; it is tracked as `selectionBoxNode` together with the
selected-element reference as the transient Selection State.  Because
every drawable append (`handleMouseDown`'s drawing branch) and every
restore clears the selection first, the overlay — when present — is
always the most recently appended child; the full child list is therefore
`elems ++ overlay`.  The Canvas Document in the sense of the spec
(`Toolbar.doc`) is the child list without the live overlay; the full
serialized content is `Toolbar.svgDoc`. -/

/-- The `DrawingTool` union type. -/
inductive Tool
  | pen
  | line
  | rectangle
  | circle
  | select
  | eraser
deriving DecidableEq, Repr

/-- A pointer position in viewBox coordinates (`getMousePosition`).
Coordinates are modelled as exact rationals. -/
structure Point where
  x : ℚ
  y : ℚ
deriving DecidableEq, Repr

/-- An axis-aligned box: the geometry computed by `updateRectangle`
during a rectangle drag, and the shape of a `getBBox` result. -/
structure RectGeom where
  x : ℚ
  y : ℚ
  width : ℚ
  height : ℚ
deriving DecidableEq, Repr

/-- Decimal digits of a natural number, most significant first;
fuel-bounded structural recursion. -/
def natDigits : Nat → Nat → Str
  | 0, _ => []
  | fuel + 1, n =>
    if n = 0 then [] else natDigits fuel (n / 10) ++ [Char.ofNat (48 + n % 10)]

/-- Printable form of a natural number. -/
def natStr (n : Nat) : Str := if n = 0 then ['0'] else natDigits n n

/-- Printable form of a coordinate, standing in for JavaScript
number-to-string conversion (sign, numerator digits, and a slash-separated
denominator when it is not 1); no verified claim depends on the exact
digits chosen, only on the quote character never being among them. -/
def ratStr (q : ℚ) : Str :=
  (if q.num < 0 then ['-'] else []) ++ natStr q.num.natAbs ++
    (if q.den = 1 then [] else '/' :: natStr q.den)

/-- Stand-in for `Math.sqrt` on the squared drag distance; binary-float
square roots are approximate, and no verified claim depends on the
resulting value. -/
def rsqrt (q : ℚ) : ℚ := (Nat.sqrt q.num.toNat : ℚ) / (Nat.sqrt q.den : ℚ)

/-- The full `DrawingToolbar` state. -/
structure Toolbar where
  activeTool : Tool
  strokeColor : Str
  strokeWidth : ℚ
  fillColor : Str
  isDrawing : Bool
  currentElement : Option Nat
  startPoint : Option Point
  pathData : Str
  selectedElement : Option Nat
  selectionBoxNode : Option (Nat × Prim)
  rootAttrs : List (Str × Str)
  elems : List (Nat × Prim)
  nextId : Nat
  history : List Str
  historyIndex : Nat
deriving DecidableEq, Repr

/-- The identity of the live selection overlay node (`this.selectionBox`
as used in the identity guards). -/
def Toolbar.selectionBox (s : Toolbar) : Option Nat :=
  s.selectionBoxNode.map Prod.fst

/-- The full `svgElement` child list.  The live overlay, when present, is
the most recently appended child: `selectElement` appends it after
clearing any previous one, and every path that appends a drawable or
restores a snapshot clears the selection first. -/
def Toolbar.svgChildren (s : Toolbar) : List (Nat × Prim) :=
  s.elems ++ s.selectionBoxNode.toList

/-- The Canvas Document in the sense of the spec: the drawable children
without the live selection overlay. -/
def Toolbar.doc (s : Toolbar) : Doc :=
  ⟨s.rootAttrs, s.elems.map Prod.snd⟩

/-- The document the source's `XMLSerializer` calls actually see: the
whole `svgElement`, live selection overlay included. -/
def Toolbar.svgDoc (s : Toolbar) : Doc :=
  ⟨s.rootAttrs, s.svgChildren.map Prod.snd⟩

/-- `maxHistorySize` (`drawing-toolbar.ts` line 29). -/
def maxHistorySize : Nat := 50

/-- `saveToHistory` (`drawing-toolbar.ts` lines 632-648): serialize the
whole `svgElement` (including a live selection overlay, since
`serializeToString(this.svgElement)` takes the full subtree), drop any
redo ("future") entries, push, and either evict the oldest entry (cursor
unchanged) or advance the cursor. -/
def saveToHistory (s : Toolbar) : Toolbar :=
  let svgString := serializeDoc s.svgDoc
  let hist := s.history.take (s.historyIndex + 1) ++ [svgString]
  if hist.length > maxHistorySize then
    { s with history := hist.drop 1 }
  else
    { s with history := hist, historyIndex := s.historyIndex + 1 }

/-- `canUndo` (line 653): the cursor is not at the first entry. -/
def canUndo (s : Toolbar) : Prop := 0 < s.historyIndex

instance (s : Toolbar) : Decidable (canUndo s) := by unfold canUndo; infer_instance

/-- `canRedo` (line 660): the cursor is not at the last entry.  The
source's `historyIndex < this.history.length - 1` on JavaScript numbers
is written without truncated subtraction. -/
def canRedo (s : Toolbar) : Prop := s.historyIndex + 1 < s.history.length

instance (s : Toolbar) : Decidable (canRedo s) := by unfold canRedo; infer_instance

/-- `clearSelection` (lines 562-568): remove the overlay box node from
the `svgElement` and drop the selected-element reference. -/
def clearSelection (s : Toolbar) : Toolbar :=
  { s with selectionBoxNode := none, selectedElement := none }

/-- DOM `setAttribute`: update an existing attribute in place, else
append it. -/
def setAttrOne (as : List (Str × Str)) (n v : Str) : List (Str × Str) :=
  if as.any (fun a => a.1 == n) then
    as.map (fun a => if a.1 == n then (a.1, v) else a)
  else as ++ [(n, v)]

/-- Copying the parsed snapshot's attributes onto the live root via
repeated `setAttribute` (`restoreFromHistory` lines 705-708). -/
def mergeAttrs (old new : List (Str × Str)) : List (Str × Str) :=
  new.foldl (fun acc a => setAttrOne acc a.1 a.2) old

/-- Cloned nodes receive fresh identities. -/
def withIds : List Prim → Nat → List (Nat × Prim)
  | [], _ => []
  | p :: ps, n => (n, p) :: withIds ps (n + 1)

/-- `restoreFromHistory` (lines 689-722): parse the snapshot at the
cursor; if an `svg` root is found, replace the children with clones,
copy the root attributes over, and clear the selection; otherwise leave
the state unchanged. -/
def restoreFromHistory (s : Toolbar) : Toolbar :=
  match s.history[s.historyIndex]? with
  | none => s
  | some snapshot =>
    match parseDoc snapshot with
    | none => s
    | some nd =>
      { s with rootAttrs := mergeAttrs s.rootAttrs nd.rootAttrs,
               elems := withIds nd.children s.nextId,
               nextId := s.nextId + nd.children.length,
               selectionBoxNode := none, selectedElement := none }

/-- `undo` (lines 667-673). -/
def undo (s : Toolbar) : Toolbar :=
  if canUndo s then restoreFromHistory { s with historyIndex := s.historyIndex - 1 }
  else s

/-- `redo` (lines 678-684). -/
def redo (s : Toolbar) : Toolbar :=
  if canRedo s then restoreFromHistory { s with historyIndex := s.historyIndex + 1 }
  else s

/-- `setActiveTool` (lines 303-306): records the tool and re-renders the
toolbar UI; nothing else. -/
def setActiveTool (s : Toolbar) (tool : Tool) : Toolbar :=
  { s with activeTool := tool }

/-- Look an element up by identity. -/
def findElem (id : Nat) (es : List (Nat × Prim)) : Option Prim :=
  (es.find? (fun e => e.1 == id)).map Prod.snd

def pathTag : Str := ['p', 'a', 't', 'h']

def lineTag : Str := ['l', 'i', 'n', 'e']

def rectTag : Str := ['r', 'e', 'c', 't']

def circleTag : Str := ['c', 'i', 'r', 'c', 'l', 'e']

/-- The tag check of `handleSelectClick` / `handleEraserClick`. -/
def isDrawableTag (tg : Str) : Bool :=
  tg == pathTag || tg == lineTag || tg == rectTag || tg == circleTag

/-- Stand-in for the host's `SVGGraphicsElement.getBBox()`: bounding
boxes depend on live rendering and cannot be computed from the string
attributes; no verified claim depends on these numbers, only on the
overlay element's presence, tag and styling. -/
def getBBox (_el : Prim) : RectGeom := ⟨0, 0, 0, 0⟩

/-- The overlay rectangle `selectElement` builds (lines 546-555): the
bounding box padded by 2, no fill, dashed blue stroke, pointer events
off. -/
def selectionBoxPrim (bbox : RectGeom) : Prim :=
  ⟨rectTag,
    [("x".toList, ratStr (bbox.x - 2)), ("y".toList, ratStr (bbox.y - 2)),
     ("width".toList, ratStr (bbox.width + 4)),
     ("height".toList, ratStr (bbox.height + 4)),
     ("fill".toList, "none".toList), ("stroke".toList, "#4299e1".toList),
     ("stroke-width".toList, "2".toList),
     ("stroke-dasharray".toList, "5,5".toList),
     ("style".toList, "pointer-events: none".toList)]⟩

/-- `selectElement` (lines 540-557): clear any previous selection, record
the reference, and append a fresh bounding-box overlay rectangle to the
`svgElement` (`appendChild` at line 556). -/
def selectElement (s : Toolbar) (id : Nat) (el : Prim) : Toolbar :=
  let s1 := clearSelection s
  { s1 with selectedElement := some id,
            selectionBoxNode := some (s1.nextId, selectionBoxPrim (getBBox el)),
            nextId := s1.nextId + 1 }

/-- `handleSelectClick` (lines 521-535).  A `none` target is the `svg`
root itself. -/
def handleSelectClick (s : Toolbar) (target : Option Nat) : Toolbar :=
  match target with
  | none => clearSelection s
  | some tid =>
    if s.selectionBox = some tid then clearSelection s
    else
      match findElem tid s.elems with
      | some p => if isDrawableTag p.tag then selectElement s tid p else clearSelection s
      | none => clearSelection s

/-- `handleEraserClick` (lines 573-590).  The `Bool` result records
whether the document-changed callback fired. -/
def handleEraserClick (s : Toolbar) (target : Option Nat) : Toolbar × Bool :=
  match target with
  | none => (s, false)
  | some tid =>
    if s.selectionBox = some tid then (s, false)
    else
      match findElem tid s.elems with
      | some p =>
        if isDrawableTag p.tag then
          (saveToHistory { s with elems := s.elems.filter (fun e => e.1 != tid) }, true)
        else (s, false)
      | none => (s, false)

/-- Append a freshly created element (`svgElement.appendChild`) and track
it as the element under construction. -/
def appendElem (s : Toolbar) (p : Prim) : Toolbar :=
  { s with elems := s.elems ++ [(s.nextId, p)], currentElement := some s.nextId,
           nextId := s.nextId + 1 }

/-- `startPenDrawing` (lines 415-423). -/
def startPenDrawing (s : Toolbar) (point : Point) : Toolbar :=
  let d0 := 'M' :: ' ' :: (ratStr point.x ++ ',' :: ratStr point.y)
  appendElem { s with pathData := d0 }
    ⟨pathTag, [(['d'], d0), (['s', 't', 'r', 'o', 'k', 'e'], s.strokeColor),
      (['s', 't', 'r', 'o', 'k', 'e', '-', 'w', 'i', 'd', 't', 'h'], ratStr s.strokeWidth),
      (['f', 'i', 'l', 'l'], ['n', 'o', 'n', 'e'])]⟩

/-- `startLineDrawing` (lines 438-447). -/
def startLineDrawing (s : Toolbar) (point : Point) : Toolbar :=
  appendElem s
    ⟨lineTag, [(['x', '1'], ratStr point.x), (['y', '1'], ratStr point.y),
      (['x', '2'], ratStr point.x), (['y', '2'], ratStr point.y),
      (['s', 't', 'r', 'o', 'k', 'e'], s.strokeColor),
      (['s', 't', 'r', 'o', 'k', 'e', '-', 'w', 'i', 'd', 't', 'h'], ratStr s.strokeWidth)]⟩

/-- `startRectangleDrawing` (lines 462-472). -/
def startRectangleDrawing (s : Toolbar) (point : Point) : Toolbar :=
  appendElem s
    ⟨rectTag, [(['x'], ratStr point.x), (['y'], ratStr point.y),
      (['w', 'i', 'd', 't', 'h'], ['0']), (['h', 'e', 'i', 'g', 'h', 't'], ['0']),
      (['s', 't', 'r', 'o', 'k', 'e'], s.strokeColor),
      (['s', 't', 'r', 'o', 'k', 'e', '-', 'w', 'i', 'd', 't', 'h'], ratStr s.strokeWidth),
      (['f', 'i', 'l', 'l'], s.fillColor)]⟩

/-- `startCircleDrawing` (lines 494-503). -/
def startCircleDrawing (s : Toolbar) (point : Point) : Toolbar :=
  appendElem s
    ⟨circleTag, [(['c', 'x'], ratStr point.x), (['c', 'y'], ratStr point.y),
      (['r'], ['0']),
      (['s', 't', 'r', 'o', 'k', 'e'], s.strokeColor),
      (['s', 't', 'r', 'o', 'k', 'e', '-', 'w', 'i', 'd', 't', 'h'], ratStr s.strokeWidth),
      (['f', 'i', 'l', 'l'], s.fillColor)]⟩

/-- `setAttribute` on the element with the given identity. -/
def setElemAttr (s : Toolbar) (id : Nat) (n v : Str) : Toolbar :=
  { s with elems := s.elems.map (fun e =>
      if e.1 == id then (e.1, ⟨e.2.tag, setAttrOne e.2.attrs n v⟩) else e) }

/-- `handleMouseDown` (lines 324-355). -/
def handleMouseDown (s : Toolbar) (target : Option Nat) (point : Point) : Toolbar × Bool :=
  if s.activeTool = Tool.select then (handleSelectClick s target, false)
  else if s.activeTool = Tool.eraser then handleEraserClick s target
  else
    let s1 := clearSelection s
    let s2 := { s1 with isDrawing := true, startPoint := some point }
    (match s2.activeTool with
     | Tool.pen => startPenDrawing s2 point
     | Tool.line => startLineDrawing s2 point
     | Tool.rectangle => startRectangleDrawing s2 point
     | Tool.circle => startCircleDrawing s2 point
     | _ => s2, false)

/-- `continuePenDrawing` (lines 428-433). -/
def continuePenDrawing (s : Toolbar) (point : Point) : Toolbar :=
  match s.currentElement with
  | some id =>
    let pd := s.pathData ++ ' ' :: 'L' :: ' ' :: (ratStr point.x ++ ',' :: ratStr point.y)
    setElemAttr { s with pathData := pd } id ['d'] pd
  | none => s

/-- The geometry computed by `updateRectangle` during a rectangle drag
(lines 477-489): width/height are the component-wise absolute
differences, the origin the component-wise minimum. -/
def updateRectangle (startPoint point : Point) : RectGeom :=
  { width := |point.x - startPoint.x|,
    height := |point.y - startPoint.y|,
    x := min point.x startPoint.x,
    y := min point.y startPoint.y }

/-- `handleMouseMove` (lines 360-374) together with the per-tool update
functions (`updateLine`, `updateRectangle`, `updateCircle`). -/
def handleMouseMove (s : Toolbar) (point : Point) : Toolbar :=
  if s.isDrawing = false then s
  else if s.activeTool = Tool.pen then continuePenDrawing s point
  else if s.activeTool = Tool.line then
    match s.currentElement with
    | some id =>
      setElemAttr (setElemAttr s id (['x', '2']) (ratStr point.x)) id (['y', '2']) (ratStr point.y)
    | none => s
  else if s.activeTool = Tool.rectangle then
    match s.currentElement, s.startPoint with
    | some id, some sp =>
      let g := updateRectangle sp point
      setElemAttr (setElemAttr (setElemAttr (setElemAttr s
        id (['x']) (ratStr g.x)) id (['y']) (ratStr g.y))
        id (['w', 'i', 'd', 't', 'h']) (ratStr g.width))
        id (['h', 'e', 'i', 'g', 'h', 't']) (ratStr g.height)
    | _, _ => s
  else if s.activeTool = Tool.circle then
    match s.currentElement, s.startPoint with
    | some id, some sp =>
      let dx := point.x - sp.x
      let dy := point.y - sp.y
      setElemAttr s id (['r']) (ratStr (rsqrt (dx * dx + dy * dy)))
    | _, _ => s
  else s

/-- `handleMouseUp` (lines 379-394).  The `Bool` result records whether
the document-changed callback fired. -/
def handleMouseUp (s : Toolbar) : Toolbar × Bool :=
  if s.isDrawing then
    (saveToHistory { s with isDrawing := false, currentElement := none,
                            startPoint := none, pathData := [] }, true)
  else (s, false)

/-- A keyboard event as `handleKeyDown` inspects it. -/
structure KeyEvent where
  key : Str
  ctrlKey : Bool
  metaKey : Bool
  shiftKey : Bool
deriving DecidableEq, Repr

def zKey : Str := ['z']

def yKey : Str := ['y']

def deleteKey : Str := ['D', 'e', 'l', 'e', 't', 'e']

def backspaceKey : Str := ['B', 'a', 'c', 'k', 's', 'p', 'a', 'c', 'e']

/-- `handleKeyDown` (lines 595-627): Ctrl/Cmd+Z undoes, Ctrl/Cmd+Shift+Z
or Ctrl/Cmd+Y redoes, and Delete or Backspace removes the selected
element, clears the selection, pushes a history entry and fires the
document-changed callback (the `Bool` result). -/
def handleKeyDown (s : Toolbar) (e : KeyEvent) : Toolbar × Bool :=
  let s1 := if (e.ctrlKey || e.metaKey) && e.key == zKey && !e.shiftKey then
      (if canUndo s then undo s else s) else s
  let s2 := if ((e.ctrlKey || e.metaKey) && e.key == zKey && e.shiftKey) ||
      ((e.ctrlKey || e.metaKey) && e.key == yKey) then
      (if canRedo s1 then redo s1 else s1) else s1
  if e.key == deleteKey || e.key == backspaceKey then
    match s2.selectedElement with
    | some id =>
      (saveToHistory (clearSelection
        { s2 with elems := s2.elems.filter (fun x => x.1 != id) }), true)
    | none => (s2, false)
  else (s2, false)

/-- The toolbar constructor (lines 31-49): style defaults from settings
and the history seeded with the current document's serialization at
cursor 0. -/
def initToolbar (strokeColor : Str) (strokeWidth : ℚ) (fillColor : Str)
    (rootAttrs : List (Str × Str)) (prims : List Prim) : Toolbar :=
  { activeTool := Tool.pen, strokeColor := strokeColor, strokeWidth := strokeWidth,
    fillColor := fillColor, isDrawing := false, currentElement := none,
    startPoint := none, pathData := [], selectedElement := none, selectionBoxNode := none,
    rootAttrs := rootAttrs, elems := withIds prims 0, nextId := prims.length,
    history := [serializeDoc ⟨rootAttrs, prims⟩], historyIndex := 0 }

/-! ## History-machine lemmas -/

theorem map_snd_withIds : ∀ (ps : List Prim) (n : Nat), (withIds ps n).map Prod.snd = ps
  | [], _ => rfl
  | p :: ps, n => by simp [withIds, map_snd_withIds ps (n + 1)]

theorem saveToHistory_low (s : Toolbar) (hidx : s.historyIndex < s.history.length)
    (h49 : s.historyIndex < 49) :
    saveToHistory s = { s with
      history := s.history.take (s.historyIndex + 1) ++ [serializeDoc s.svgDoc],
      historyIndex := s.historyIndex + 1 } := by
  have hlen : (s.history.take (s.historyIndex + 1) ++ [serializeDoc s.svgDoc]).length =
      s.historyIndex + 2 := by
    simp [List.length_take]
    omega
  unfold saveToHistory
  rw [if_neg (by simp only [hlen, maxHistorySize]; omega)]

theorem saveToHistory_high (s : Toolbar) (hidx : s.historyIndex < s.history.length)
    (h49 : 49 ≤ s.historyIndex) :
    saveToHistory s = { s with
      history := (s.history.take (s.historyIndex + 1) ++ [serializeDoc s.svgDoc]).drop 1 } := by
  have hlen : (s.history.take (s.historyIndex + 1) ++ [serializeDoc s.svgDoc]).length =
      s.historyIndex + 2 := by
    simp [List.length_take]
    omega
  unfold saveToHistory
  rw [if_pos (by simp only [hlen, maxHistorySize]; omega)]

theorem restoreFromHistory_keeps (t : Toolbar) :
    (restoreFromHistory t).history = t.history ∧
      (restoreFromHistory t).historyIndex = t.historyIndex := by
  unfold restoreFromHistory
  rcases h : t.history[t.historyIndex]? with _ | snap
  · simp
  · rcases h2 : parseDoc snap with _ | nd
    · simp [h2]
    · simp [h2]

inductive Mutation
  | finalize (p : Prim)
  | erase (id : Nat)
  | deleteSel (id : Nat)
deriving DecidableEq, Repr

/-- A committed shape is well-formed when its element is. -/
def Mutation.WF : Mutation → Prop
  | .finalize p => p.WF
  | .erase _ => True
  | .deleteSel _ => True

instance : (m : Mutation) → Decidable m.WF
  | .finalize p => inferInstanceAs (Decidable p.WF)
  | .erase _ => inferInstanceAs (Decidable True)
  | .deleteSel _ => inferInstanceAs (Decidable True)

/-- The document mutation performed before the history push: the net
effect of a completed drag gesture (`handleMouseDown` append plus
`handleMouseUp` cleanup), of an eraser removal, or of a Delete-key
removal with its selection clearing. -/
def mutBase (s : Toolbar) : Mutation → Toolbar
  | .finalize p =>
    let s1 := clearSelection s
    { s1 with elems := s1.elems ++ [(s1.nextId, p)], nextId := s1.nextId + 1,
              isDrawing := false, currentElement := none, startPoint := none,
              pathData := [] }
  | .erase id => { s with elems := s.elems.filter (fun e => e.1 != id) }
  | .deleteSel id => clearSelection { s with elems := s.elems.filter (fun e => e.1 != id) }

/-- A committed mutation: mutate, then `saveToHistory`. -/
def applyMutation (s : Toolbar) (m : Mutation) : Toolbar :=
  saveToHistory (mutBase s m)

/-- A whole sequence of committed mutations. -/
def runMutations (s : Toolbar) (ms : List Mutation) : Toolbar :=
  ms.foldl applyMutation s

theorem mutBase_fields (s : Toolbar) (m : Mutation) :
    (mutBase s m).history = s.history ∧ (mutBase s m).historyIndex = s.historyIndex ∧
      (mutBase s m).rootAttrs = s.rootAttrs := by
  cases m <;> exact ⟨rfl, rfl, rfl⟩

/-- The decidable per-state facts the history bound rests on: the cursor
is in range and the entry at the cursor is the serialization of the full
`svgElement` content at the time it was pushed. -/
def GoodState (s : Toolbar) : Prop :=
  s.historyIndex < s.history.length ∧
  s.history[s.historyIndex]? = some (serializeDoc s.svgDoc)

instance (s : Toolbar) : Decidable (GoodState s) := by unfold GoodState; infer_instance

/-- `GoodState` plus the history bound. -/
def HistoryInv (s : Toolbar) : Prop :=
  GoodState s ∧ s.history.length ≤ maxHistorySize

instance (s : Toolbar) : Decidable (HistoryInv s) := by unfold HistoryInv; infer_instance

theorem initToolbar_doc (sc : Str) (sw : ℚ) (fc : Str) (root : List (Str × Str))
    (prims : List Prim) :
    (initToolbar sc sw fc root prims).doc = ⟨root, prims⟩ := by
  simp [initToolbar, Toolbar.doc, map_snd_withIds]

theorem initToolbar_svgDoc (sc : Str) (sw : ℚ) (fc : Str) (root : List (Str × Str))
    (prims : List Prim) :
    (initToolbar sc sw fc root prims).svgDoc = ⟨root, prims⟩ := by
  simp [initToolbar, Toolbar.svgDoc, Toolbar.svgChildren, map_snd_withIds]

/-- A state with no live overlay serializes exactly its Canvas Document. -/
theorem svgDoc_eq_doc (s : Toolbar) (h : s.selectionBoxNode = none) :
    s.svgDoc = s.doc := by
  simp [Toolbar.svgDoc, Toolbar.svgChildren, Toolbar.doc, h]

theorem initToolbar_HistoryInv (sc : Str) (sw : ℚ) (fc : Str) (root : List (Str × Str))
    (prims : List Prim) :
    HistoryInv (initToolbar sc sw fc root prims) := by
  refine ⟨⟨by simp [initToolbar], ?_⟩, by simp [initToolbar, maxHistorySize]⟩
  rw [initToolbar_svgDoc]
  rfl

theorem applyMutation_GoodState (s : Toolbar) (m : Mutation)
    (hg : GoodState s) : GoodState (applyMutation s m) := by
  obtain ⟨hidx, hcur⟩ := hg
  obtain ⟨hh, hi, hr⟩ := mutBase_fields s m
  have hidx2 : (mutBase s m).historyIndex < (mutBase s m).history.length := by
    rw [hh, hi]; exact hidx
  have hlen : (List.take ((mutBase s m).historyIndex + 1) (mutBase s m).history).length =
      (mutBase s m).historyIndex + 1 := by
    simp [List.length_take]
    omega
  have hcat := List.getElem?_concat_length
    (List.take ((mutBase s m).historyIndex + 1) (mutBase s m).history)
    (serializeDoc (mutBase s m).svgDoc)
  rw [hlen] at hcat
  rcases Nat.lt_or_ge (mutBase s m).historyIndex 49 with h49 | h49
  · rw [applyMutation, saveToHistory_low _ hidx2 h49]
    refine ⟨?_, ?_⟩
    · simp [hlen]
    · simpa [Toolbar.svgDoc, Toolbar.svgChildren] using hcat
  · rw [applyMutation, saveToHistory_high _ hidx2 h49]
    refine ⟨?_, ?_⟩
    · simp [hlen]
    · have h2 := List.getElem?_drop (List.take ((mutBase s m).historyIndex + 1)
        (mutBase s m).history ++ [serializeDoc (mutBase s m).svgDoc]) 1
        (mutBase s m).historyIndex
      rw [show 1 + (mutBase s m).historyIndex = (mutBase s m).historyIndex + 1 from by omega,
        hcat] at h2
      simpa [Toolbar.svgDoc, Toolbar.svgChildren] using h2

theorem applyMutation_HistoryInv (s : Toolbar) (m : Mutation)
    (h : HistoryInv s) : HistoryInv (applyMutation s m) := by
  obtain ⟨hg, hb⟩ := h
  refine ⟨applyMutation_GoodState s m hg, ?_⟩
  obtain ⟨hidx, _⟩ := hg
  obtain ⟨hh, hi, _⟩ := mutBase_fields s m
  have hidx2 : (mutBase s m).historyIndex < (mutBase s m).history.length := by
    rw [hh, hi]; exact hidx
  have hlen : (List.take ((mutBase s m).historyIndex + 1) (mutBase s m).history).length =
      (mutBase s m).historyIndex + 1 := by
    simp [List.length_take]
    omega
  rcases Nat.lt_or_ge (mutBase s m).historyIndex 49 with h49 | h49
  · rw [applyMutation, saveToHistory_low _ hidx2 h49]
    simp only [maxHistorySize] at hb ⊢
    simp [hlen]
    omega
  · rw [applyMutation, saveToHistory_high _ hidx2 h49]
    have hib : (mutBase s m).historyIndex < s.history.length := by rw [hi]; exact hidx
    simp only [maxHistorySize] at hb ⊢
    simp [hlen]
    rw [hi]
    omega

theorem runMutations_HistoryInv (s : Toolbar) (ms : List Mutation)
    (h : HistoryInv s) : HistoryInv (runMutations s ms) := by
  induction ms generalizing s with
  | nil => exact h
  | cons m ms ih => exact ih (applyMutation s m) (applyMutation_HistoryInv s m h)

theorem undo_keeps (w : Toolbar) (h0 : canUndo w) :
    (undo w).history = w.history ∧ (undo w).historyIndex = w.historyIndex - 1 := by
  unfold undo
  rw [if_pos h0]
  exact ⟨(restoreFromHistory_keeps _).1, (restoreFromHistory_keeps _).2⟩

/-- C3: after `undo()` has moved the cursor back, a newly committed
mutation discards every History Entry beyond the new cursor before
appending its own snapshot, so a `redo()` after that mutation is a no-op
(the cursor is already at the last index). -/
theorem redo_invalidation (s : Toolbar) (m : Mutation) (hc : canUndo s)
    (hidx : s.historyIndex < s.history.length)
    (hbound : s.history.length ≤ maxHistorySize) :
    ¬canRedo (applyMutation (undo s) m) ∧
    redo (applyMutation (undo s) m) = applyMutation (undo s) m ∧
    (applyMutation (undo s) m).history =
      (undo s).history.take ((undo s).historyIndex + 1) ++
        [serializeDoc (applyMutation (undo s) m).svgDoc] ∧
    (applyMutation (undo s) m).historyIndex = (undo s).historyIndex + 1 := by
  obtain ⟨huh, hui⟩ := undo_keeps s hc
  obtain ⟨hh, hi, _⟩ := mutBase_fields (undo s) m
  have hc' : 0 < s.historyIndex := hc
  have hidxu : (mutBase (undo s) m).historyIndex < (mutBase (undo s) m).history.length := by
    rw [hh, hi, huh, hui]
    omega
  have h49 : (mutBase (undo s) m).historyIndex < 49 := by
    rw [hi, hui]
    simp only [maxHistorySize] at hbound
    omega
  have hweq : applyMutation (undo s) m = { mutBase (undo s) m with
      history := List.take ((mutBase (undo s) m).historyIndex + 1)
        (mutBase (undo s) m).history ++ [serializeDoc (mutBase (undo s) m).svgDoc],
      historyIndex := (mutBase (undo s) m).historyIndex + 1 } := by
    rw [applyMutation, saveToHistory_low _ hidxu h49]
  have hlen : (List.take ((mutBase (undo s) m).historyIndex + 1)
      (mutBase (undo s) m).history).length = (mutBase (undo s) m).historyIndex + 1 := by
    simp [List.length_take]
    omega
  have hnored : ¬canRedo (applyMutation (undo s) m) := by
    rw [hweq]
    show ¬((mutBase (undo s) m).historyIndex + 1 + 1 <
      (List.take ((mutBase (undo s) m).historyIndex + 1)
        (mutBase (undo s) m).history ++
        [serializeDoc (mutBase (undo s) m).svgDoc]).length)
    simp [hlen]
  refine ⟨hnored, ?_, ?_, ?_⟩
  · unfold redo
    rw [if_neg hnored]
  · rw [hweq]
    show List.take ((mutBase (undo s) m).historyIndex + 1) (mutBase (undo s) m).history ++
        [serializeDoc (mutBase (undo s) m).svgDoc] =
      List.take ((undo s).historyIndex + 1) (undo s).history ++
        [serializeDoc (mutBase (undo s) m).svgDoc]
    rw [hh, hi]
  · rw [hweq]
    show (mutBase (undo s) m).historyIndex + 1 = (undo s).historyIndex + 1
    rw [hi]

/-- C1 (amended): over any sequence of committed mutations the History
Stack holds at most 50 entries, and when the bound is exceeded
`saveToHistory` evicts the oldest entry while the cursor does not
advance.  The entry at the cursor equals the serialization of the full
`svgElement` content immediately after the most recent mutation — which
is the serialization of the Canvas Document itself whenever no selection
overlay is live at that point, but not in general: an eraser commit made
with a live selection snapshots the overlay rectangle too (see the
counterexample). -/
theorem history_bound_invariant (sc : Str) (sw : ℚ) (fc : Str)
    (root : List (Str × Str)) (prims : List Prim) (ms : List Mutation) :
    (runMutations (initToolbar sc sw fc root prims) ms).history.length ≤ maxHistorySize ∧
    (runMutations (initToolbar sc sw fc root prims) ms).history[
      (runMutations (initToolbar sc sw fc root prims) ms).historyIndex]? =
      some (serializeDoc (runMutations (initToolbar sc sw fc root prims) ms).svgDoc) ∧
    ((runMutations (initToolbar sc sw fc root prims) ms).selectionBoxNode = none →
      (runMutations (initToolbar sc sw fc root prims) ms).history[
        (runMutations (initToolbar sc sw fc root prims) ms).historyIndex]? =
        some (serializeDoc (runMutations (initToolbar sc sw fc root prims) ms).doc)) ∧
    (∀ t : Toolbar, t.historyIndex < t.history.length → 49 ≤ t.historyIndex →
      (saveToHistory t).history =
        (t.history.take (t.historyIndex + 1) ++ [serializeDoc t.svgDoc]).drop 1 ∧
      (saveToHistory t).historyIndex = t.historyIndex) := by
  have hinv := runMutations_HistoryInv (initToolbar sc sw fc root prims) ms
    (initToolbar_HistoryInv sc sw fc root prims)
  refine ⟨hinv.2, hinv.1.2, ?_, ?_⟩
  · intro hnone
    rw [← svgDoc_eq_doc _ hnone]
    exact hinv.1.2
  · intro t h1 h2
    rw [saveToHistory_high t h1 h2]
    exact ⟨rfl, rfl⟩

/-- A concrete toolbar state with the Select tool active and an element
selected (with its overlay box shown). -/
def selectToolState : Toolbar :=
  { initToolbar ['#'] 2 ['n'] [] [⟨rectTag, []⟩] with
      activeTool := Tool.select, selectedElement := some 0,
      selectionBoxNode := some (1, selectionBoxPrim (getBBox ⟨rectTag, []⟩)),
      nextId := 2 }

/-- C4 counterexample: with the Select tool active and an element
selected, switching to the Pen tool via `setActiveTool` leaves the
Selection State (selected reference and overlay box) fully in place, so
the claim that leaving Select mode clears the Selection State is false at
this input. -/
theorem selectTool_counterexample :
    selectToolState.activeTool = Tool.select ∧
    Tool.pen ≠ Tool.select ∧
    selectToolState.selectedElement = some 0 ∧
    (setActiveTool selectToolState Tool.pen).activeTool = Tool.pen ∧
    (setActiveTool selectToolState Tool.pen).selectedElement = some 0 ∧
    (setActiveTool selectToolState Tool.pen).selectionBox = some 1 ∧
    ¬((setActiveTool selectToolState Tool.pen).selectedElement = none) := by
  decide

/-- C4 (amended): `setActiveTool` records the new active tool and mutates
nothing else: the Canvas Document is untouched and the Selection State is
left unchanged (it is cleared only when a drawing gesture starts, when the
selected element is deleted, or when a history snapshot is restored). -/
theorem selectTool_amended (s : Toolbar) (tool : Tool) :
    (setActiveTool s tool).activeTool = tool ∧
    (setActiveTool s tool).doc = s.doc ∧
    (setActiveTool s tool).elems = s.elems ∧
    (setActiveTool s tool).selectedElement = s.selectedElement ∧
    (setActiveTool s tool).selectionBox = s.selectionBox ∧
    (setActiveTool s tool).history = s.history ∧
    (setActiveTool s tool).historyIndex = s.historyIndex :=
  ⟨rfl, rfl, rfl, rfl, rfl, rfl, rfl⟩

/-! ## The Editor Session Registry (`editor-state-manager.ts`) -/

/-- Observable session actions, recorded in execution order. -/
inductive EMAction
  | saved (id : Nat)
  | closed (id : Nat)
  | activated (id : Nat)
deriving DecidableEq, Repr

/-- `EditorStateManager`: the single active-editor slot.  Sessions are
identified by number; the log records the order in which sessions were
saved, closed and activated. -/
structure EditorStateManager where
  activeEditor : Option Nat
  log : List EMAction
deriving DecidableEq, Repr

/-- `closeActiveEditor` (`editor-state-manager.ts` lines 256-262): save
the active editor, close it, clear the slot. -/
def EditorStateManager.closeActiveEditor (s : EditorStateManager) : EditorStateManager :=
  match s.activeEditor with
  | some id => ⟨none, s.log ++ [EMAction.saved id, EMAction.closed id]⟩
  | none => s

/-- `setActiveEditor` (lines 239-244): if a different editor is active,
close it first; then record the new editor as active. -/
def EditorStateManager.setActiveEditor (s : EditorStateManager) (editor : Nat) :
    EditorStateManager :=
  let s1 := if s.activeEditor ≠ none ∧ s.activeEditor ≠ some editor then
    s.closeActiveEditor else s
  { activeEditor := some editor, log := s1.log ++ [EMAction.activated editor] }

/-- `clearActiveEditor` (lines 275-277): drop the reference without
closing. -/
def EditorStateManager.clearActiveEditor (s : EditorStateManager) : EditorStateManager :=
  { s with activeEditor := none }

/-- C5: activating a new session while a different one is active leaves
exactly the new session active, and the prior session was saved and then
closed before the new session was recorded as active. -/
theorem single_session_invariant (s : EditorStateManager) (old editor : Nat)
    (hact : s.activeEditor = some old) (hne : old ≠ editor) :
    (s.setActiveEditor editor).activeEditor = some editor ∧
    (s.setActiveEditor editor).log =
      s.log ++ [EMAction.saved old, EMAction.closed old, EMAction.activated editor] := by
  have hcond : s.activeEditor ≠ none ∧ s.activeEditor ≠ some editor := by
    constructor
    · rw [hact]; simp
    · rw [hact]; simpa using hne
  unfold EditorStateManager.setActiveEditor
  rw [if_pos hcond]
  unfold EditorStateManager.closeActiveEditor
  rw [hact]
  exact ⟨rfl, by simp⟩

/-- C6: parsing the saved serialization of any well-formed Canvas Document
(any mix of the four primitive kinds) yields a document with an identical
ordered primitive sequence and identical document-level attributes, so
saving immediately after loading reproduces a structurally equivalent
document. -/
theorem round_trip_law (d : Doc) (h : d.WF) :
    loadSVGContent (serializeWithHeader d) = some d :=
  parse_serializeWithHeader d h

/-- A document mixing all four primitive kinds. -/
def roundTripDoc : Doc :=
  ⟨[(['w', 'i', 'd', 't', 'h'], ['8', '0', '0']),
    (['h', 'e', 'i', 'g', 'h', 't'], ['6', '0', '0']),
    (['v', 'i', 'e', 'w', 'B', 'o', 'x'], ['0', ' ', '0', ' ', '8', '0', '0', ' ', '6', '0', '0'])],
   [⟨pathTag, [(['d'], ['M', ' ', '1', '0', ',', '1', '0', ' ', 'L', ' ', '2', '0', ',', '2', '0'])]⟩,
    ⟨lineTag, [(['x', '1'], ['0']), (['y', '1'], ['0']), (['x', '2'], ['5']), (['y', '2'], ['5'])]⟩,
    ⟨rectTag, [(['x'], ['5', '0']), (['y'], ['5', '0']), (['w', 'i', 'd', 't', 'h'], ['5', '0'])]⟩,
    ⟨circleTag, [(['c', 'x'], ['9']), (['c', 'y'], ['9']), (['r'], ['3'])]⟩]⟩

/-- C6 witness: the round trip evaluated on a concrete document holding
all four primitive kinds. -/
theorem round_trip_law_witness :
    roundTripDoc.WF ∧
      loadSVGContent (serializeWithHeader roundTripDoc) = some roundTripDoc :=
  ⟨by decide, round_trip_law roundTripDoc (by decide)⟩

/-! ## `InlineSVGEditor.save` (`inline-svg-editor.ts`) -/

/-- The slice of `InlineSVGEditor` state that `save()` reads and writes. -/
structure InlineSVGEditor where
  svgElement : Option Doc
  hasUnsavedChanges : Bool
deriving DecidableEq, Repr

/-- What one `save()` call produced: the resulting session state, the
content handed to `SVGFileManager.saveSVG`, the notices shown, and the
re-thrown error when the write failed. -/
structure SaveOutcome where
  state : InlineSVGEditor
  attempted : Option Str
  notices : List Str
  thrown : Option Str
deriving DecidableEq, Repr

/-- The notice text of the `save()` catch branch. -/
def saveErrorNotice (msg : Str) : Str :=
  "Error saving drawing: ".toList ++ msg

/-- `save()` (lines 177-195): serialize with the XML declaration header,
write via the file store (its outcome supplied as `writeError`; `none`
means success), clear the dirty flag on success, and on failure show one
notice and re-throw. -/
def InlineSVGEditor.save (s : InlineSVGEditor) (writeError : Option Str) : SaveOutcome :=
  match s.svgElement with
  | none => ⟨s, none, [], none⟩
  | some d =>
    let fullSvgContent := serializeWithHeader d
    match writeError with
    | none => ⟨{ s with hasUnsavedChanges := false }, some fullSvgContent, [], none⟩
    | some msg => ⟨s, some fullSvgContent, [saveErrorNotice msg], some msg⟩

/-- C8: `save()` writes the serialized document with its XML declaration
header; on success the dirty flag is cleared, and on write failure the
error is surfaced exactly once, re-thrown to the caller, and the session
state (including the dirty flag) is unchanged. -/
theorem save_error_handling (s : InlineSVGEditor) (d : Doc)
    (h : s.svgElement = some d) :
    ((s.save none).attempted = some (serializeWithHeader d) ∧
      (s.save none).state.hasUnsavedChanges = false ∧
      (s.save none).thrown = none ∧
      (s.save none).notices = []) ∧
    (∀ msg : Str,
      (s.save (some msg)).attempted = some (serializeWithHeader d) ∧
      (s.save (some msg)).notices = [saveErrorNotice msg] ∧
      (s.save (some msg)).thrown = some msg ∧
      (s.save (some msg)).state = s ∧
      (s.save (some msg)).state.hasUnsavedChanges = s.hasUnsavedChanges) := by
  unfold InlineSVGEditor.save
  rw [h]
  exact ⟨⟨rfl, rfl, rfl, rfl⟩, fun msg => ⟨rfl, rfl, rfl, rfl, rfl⟩⟩

/-- C8 witness: `save()` evaluated at a concrete session for both write
outcomes. -/
theorem save_error_handling_witness :
    (⟨some roundTripDoc, true⟩ : InlineSVGEditor).svgElement = some roundTripDoc ∧
    ((⟨some roundTripDoc, true⟩ : InlineSVGEditor).save none).state.hasUnsavedChanges
      = false :=
  ⟨rfl, (save_error_handling ⟨some roundTripDoc, true⟩ roundTripDoc rfl).1.2.1⟩

/-- C9: a rectangle drag from `startPoint` to `point` normalizes its
origin to the component-wise minimum of the two points and its size to
the component-wise absolute difference; in particular a drag from
(100,100) to (50,50) yields x=50, y=50, width=50, height=50. -/
theorem rectangle_normalization (startPoint point : Point) :
    (updateRectangle startPoint point).x = min startPoint.x point.x ∧
    (updateRectangle startPoint point).y = min startPoint.y point.y ∧
    (updateRectangle startPoint point).width = |point.x - startPoint.x| ∧
    (updateRectangle startPoint point).height = |point.y - startPoint.y| ∧
    updateRectangle ⟨100, 100⟩ ⟨50, 50⟩ = ⟨50, 50, 50, 50⟩ := by
  refine ⟨min_comm point.x startPoint.x, min_comm point.y startPoint.y, rfl, rfl, ?_⟩
  show RectGeom.mk (min 50 100) (min 50 100) |(50 : ℚ) - 100| |(50 : ℚ) - 100| =
    RectGeom.mk 50 50 50 50
  norm_num

/-! ## Pointer-event sequences (tool isolation) -/

inductive PtrEvent
  | down (target : Option Nat) (point : Point)
  | move (point : Point)
  | up
deriving DecidableEq, Repr

/-- Dispatch one pointer event to the toolbar's handlers. -/
def handlePtr (s : Toolbar) : PtrEvent → Toolbar
  | .down target point => (handleMouseDown s target point).1
  | .move point => handleMouseMove s point
  | .up => (handleMouseUp s).1

/-- Process a sequence of pointer events. -/
def runPtr (s : Toolbar) (es : List PtrEvent) : Toolbar := es.foldl handlePtr s

theorem saveToHistory_fields (s : Toolbar) :
    (saveToHistory s).elems = s.elems ∧ (saveToHistory s).rootAttrs = s.rootAttrs ∧
    (saveToHistory s).activeTool = s.activeTool ∧
    (saveToHistory s).isDrawing = s.isDrawing := by
  unfold saveToHistory
  dsimp only
  split <;> exact ⟨rfl, rfl, rfl, rfl⟩

theorem handleSelectClick_fields (s : Toolbar) (t : Option Nat) :
    (handleSelectClick s t).elems = s.elems ∧
    (handleSelectClick s t).rootAttrs = s.rootAttrs ∧
    (handleSelectClick s t).activeTool = s.activeTool ∧
    (handleSelectClick s t).isDrawing = s.isDrawing ∧
    (handleSelectClick s t).history = s.history ∧
    (handleSelectClick s t).historyIndex = s.historyIndex := by
  cases t with
  | none => exact ⟨rfl, rfl, rfl, rfl, rfl, rfl⟩
  | some tid =>
    simp only [handleSelectClick]
    split
    · exact ⟨rfl, rfl, rfl, rfl, rfl, rfl⟩
    · rcases h : findElem tid s.elems with _ | p
      · exact ⟨rfl, rfl, rfl, rfl, rfl, rfl⟩
      · by_cases h2 : isDrawableTag p.tag
        · simp only [h2, if_true]
          exact ⟨rfl, rfl, rfl, rfl, rfl, rfl⟩
        · simp only [h2, if_false]
          exact ⟨rfl, rfl, rfl, rfl, rfl, rfl⟩

theorem handleEraserClick_fields (s : Toolbar) (t : Option Nat) :
    ((handleEraserClick s t).1.elems = s.elems ∨
      ∃ tid, t = some tid ∧
        (handleEraserClick s t).1.elems = s.elems.filter (fun e => e.1 != tid)) ∧
    (handleEraserClick s t).1.rootAttrs = s.rootAttrs ∧
    (handleEraserClick s t).1.activeTool = s.activeTool ∧
    (handleEraserClick s t).1.isDrawing = s.isDrawing := by
  cases t with
  | none => exact ⟨Or.inl rfl, rfl, rfl, rfl⟩
  | some tid =>
    simp only [handleEraserClick]
    split
    · exact ⟨Or.inl rfl, rfl, rfl, rfl⟩
    · rcases h : findElem tid s.elems with _ | p
      · exact ⟨Or.inl rfl, rfl, rfl, rfl⟩
      · by_cases h2 : isDrawableTag p.tag
        · simp only [h2, if_true]
          obtain ⟨he, hroot, htool, hdraw⟩ :=
            saveToHistory_fields { s with elems := s.elems.filter (fun e => e.1 != tid) }
          exact ⟨Or.inr ⟨tid, rfl, he⟩, hroot, htool, hdraw⟩
        · simp only [h2, if_false]
          exact ⟨Or.inl rfl, rfl, rfl, rfl⟩

theorem handleMouseMove_other (s : Toolbar) (p : Point)
    (h : s.activeTool = Tool.select ∨ s.activeTool = Tool.eraser) :
    handleMouseMove s p = s := by
  rcases h with h | h <;> simp [handleMouseMove, h]

theorem handleMouseUp_fields (s : Toolbar) :
    (handleMouseUp s).1.elems = s.elems ∧ (handleMouseUp s).1.rootAttrs = s.rootAttrs ∧
    (handleMouseUp s).1.activeTool = s.activeTool := by
  unfold handleMouseUp
  split
  · obtain ⟨he, hroot, htool, _⟩ := saveToHistory_fields
      { s with isDrawing := false, currentElement := none, startPoint := none,
               pathData := [] }
    exact ⟨he, hroot, htool⟩
  · exact ⟨rfl, rfl, rfl⟩

theorem handlePtr_isolation (s : Toolbar) (e : PtrEvent)
    (h : s.activeTool = Tool.select ∨ s.activeTool = Tool.eraser) :
    List.Sublist ((handlePtr s e).elems.map Prod.snd) (s.elems.map Prod.snd) ∧
    (handlePtr s e).activeTool = s.activeTool := by
  cases e with
  | down t p =>
    show List.Sublist ((handleMouseDown s t p).1.elems.map Prod.snd)
        (s.elems.map Prod.snd) ∧ (handleMouseDown s t p).1.activeTool = s.activeTool
    rcases h with h | h
    · rw [handleMouseDown, if_pos h]
      obtain ⟨he, _, htool, _, _, _⟩ := handleSelectClick_fields s t
      exact ⟨by rw [he], htool⟩
    · have hnsel : ¬(s.activeTool = Tool.select) := by rw [h]; decide
      rw [handleMouseDown, if_neg hnsel, if_pos h]
      obtain ⟨he, _, htool, _⟩ := handleEraserClick_fields s t
      rcases he with he | ⟨tid, _, he⟩
      · exact ⟨by rw [he], htool⟩
      · refine ⟨?_, htool⟩
        rw [he]
        exact (List.filter_sublist _).map Prod.snd
  | move p =>
    show List.Sublist ((handleMouseMove s p).elems.map Prod.snd)
        (s.elems.map Prod.snd) ∧ (handleMouseMove s p).activeTool = s.activeTool
    rw [handleMouseMove_other s p h]
    exact ⟨List.Sublist.refl _, rfl⟩
  | up =>
    show List.Sublist ((handleMouseUp s).1.elems.map Prod.snd)
        (s.elems.map Prod.snd) ∧ (handleMouseUp s).1.activeTool = s.activeTool
    obtain ⟨he, _, htool⟩ := handleMouseUp_fields s
    exact ⟨by rw [he], htool⟩

/-- C7: while the active tool is Select or Eraser, no sequence of pointer
events ever adds a Drawable Primitive to the Canvas Document's element
sequence (the final sequence is a sublist of the initial one); a
Select-mode pointerDown leaves the document untouched, an Eraser-mode
pointerDown at most removes the targeted element, and neither starts a
drag gesture. -/
theorem tool_isolation (s : Toolbar) (es : List PtrEvent)
    (h : s.activeTool = Tool.select ∨ s.activeTool = Tool.eraser) :
    List.Sublist ((runPtr s es).doc.children) s.doc.children ∧
    (s.activeTool = Tool.select → ∀ t p,
      (handleMouseDown s t p).1.doc = s.doc ∧
      (handleMouseDown s t p).1.isDrawing = s.isDrawing) ∧
    (s.activeTool = Tool.eraser → ∀ t p,
      ((handleMouseDown s t p).1.elems = s.elems ∨
        ∃ tid, t = some tid ∧
          (handleMouseDown s t p).1.elems = s.elems.filter (fun e => e.1 != tid)) ∧
      (handleMouseDown s t p).1.isDrawing = s.isDrawing) := by
  refine ⟨?_, ?_, ?_⟩
  · show List.Sublist ((runPtr s es).elems.map Prod.snd) (s.elems.map Prod.snd)
    induction es generalizing s with
    | nil => exact List.Sublist.refl _
    | cons e es ih =>
      obtain ⟨h1, h2⟩ := handlePtr_isolation s e h
      have hstep := ih (handlePtr s e) (by rw [h2]; exact h)
      exact hstep.trans h1
  · intro hsel t p
    rw [handleMouseDown, if_pos hsel]
    obtain ⟨he, hroot, _, hdraw, _, _⟩ := handleSelectClick_fields s t
    constructor
    · show (⟨(handleSelectClick s t).rootAttrs,
        (handleSelectClick s t).elems.map Prod.snd⟩ : Doc) =
        ⟨s.rootAttrs, s.elems.map Prod.snd⟩
      rw [he, hroot]
    · exact hdraw
  · intro hera t p
    have hnsel : ¬(s.activeTool = Tool.select) := by rw [hera]; decide
    rw [handleMouseDown, if_neg hnsel, if_pos hera]
    obtain ⟨he, _, _, hdraw⟩ := handleEraserClick_fields s t
    exact ⟨he, hdraw⟩

/-- C10: with a Drawable Primitive selected, a Backspace keypress behaves
identically to a Delete keypress (for any modifier combination): the
selected element is removed from the Canvas Document, the Selection State
is cleared, one History Entry is pushed and the document-changed signal
fires; with no selection, both keys leave the toolbar unchanged and fire
no signal. -/
theorem delete_backspace_equiv (s : Toolbar) :
    (∀ c mk sh : Bool, handleKeyDown s ⟨backspaceKey, c, mk, sh⟩ =
      handleKeyDown s ⟨deleteKey, c, mk, sh⟩) ∧
    (∀ id : Nat, s.selectedElement = some id →
      handleKeyDown s ⟨deleteKey, false, false, false⟩ =
        (saveToHistory (clearSelection
          { s with elems := s.elems.filter (fun x => x.1 != id) }), true)) ∧
    (s.selectedElement = none →
      handleKeyDown s ⟨deleteKey, false, false, false⟩ = (s, false) ∧
      handleKeyDown s ⟨backspaceKey, false, false, false⟩ = (s, false)) := by
  have hbz : (backspaceKey == zKey) = false := by decide
  have hdz : (deleteKey == zKey) = false := by decide
  have hby : (backspaceKey == yKey) = false := by decide
  have hdy : (deleteKey == yKey) = false := by decide
  have hdd : (deleteKey == deleteKey) = true := by decide
  have hbb : (backspaceKey == backspaceKey) = true := by decide
  have hdb : (deleteKey == backspaceKey) = false := by decide
  have hbd : (backspaceKey == deleteKey) = false := by decide
  refine ⟨?_, ?_, ?_⟩
  · intro c mk sh
    simp [handleKeyDown, hbz, hdz, hby, hdy, hdd, hbb, hdb, hbd]
  · intro id hsel
    simp [handleKeyDown, hdz, hdy, hdd, hsel]
  · intro hsel
    constructor
    · simp [handleKeyDown, hdz, hdy, hdd, hsel]
    · simp [handleKeyDown, hbz, hby, hbb, hsel]

/-! ## Concrete witness states -/

/-- A blank-document toolbar used by the C1 witness. -/
def c1State : Toolbar := initToolbar ['#'] 2 ['n'] [(['w'], ['8'])] []

/-- C1 witness: the amended history invariant evaluated after one
committed mutation on a blank document (the inner implications are
discharged at a concrete overlay-free state). -/
theorem history_bound_invariant_witness :
    (runMutations c1State [Mutation.finalize ⟨rectTag, [(['x'], ['5'])]⟩]).history.length ≤
      maxHistorySize ∧
    (runMutations c1State
        [Mutation.finalize ⟨rectTag, [(['x'], ['5'])]⟩]).selectionBoxNode = none ∧
    (runMutations c1State [Mutation.finalize ⟨rectTag, [(['x'], ['5'])]⟩]).history[
      (runMutations c1State
        [Mutation.finalize ⟨rectTag, [(['x'], ['5'])]⟩]).historyIndex]? =
      some (serializeDoc
        (runMutations c1State [Mutation.finalize ⟨rectTag, [(['x'], ['5'])]⟩]).doc) :=
  ⟨(history_bound_invariant ['#'] 2 ['n'] [(['w'], ['8'])] []
      [Mutation.finalize ⟨rectTag, [(['x'], ['5'])]⟩]).1,
    by decide,
    (history_bound_invariant ['#'] 2 ['n'] [(['w'], ['8'])] []
      [Mutation.finalize ⟨rectTag, [(['x'], ['5'])]⟩]).2.2.1 (by decide)⟩

/-- A toolbar one mutation past its seed entry, used by the C3 witness. -/
def c3State : Toolbar :=
  applyMutation (initToolbar ['#'] 2 ['n'] [] []) (Mutation.finalize ⟨rectTag, []⟩)

/-- C3 witness: redo invalidation evaluated on a concrete state whose
cursor can move back. -/
theorem redo_invalidation_witness :
    (canUndo c3State ∧ c3State.historyIndex < c3State.history.length ∧
      c3State.history.length ≤ maxHistorySize) ∧
    ¬canRedo (applyMutation (undo c3State) (Mutation.erase 0)) ∧
    redo (applyMutation (undo c3State) (Mutation.erase 0)) =
      applyMutation (undo c3State) (Mutation.erase 0) :=
  ⟨⟨by decide, by decide, by decide⟩,
    (redo_invalidation c3State (Mutation.erase 0) (by decide) (by decide) (by decide)).1,
    (redo_invalidation c3State (Mutation.erase 0) (by decide) (by decide) (by decide)).2.1⟩

/-- C5 witness: the single-session law evaluated on a registry with
session 3 active while session 7 is activated. -/
theorem single_session_invariant_witness :
    ((⟨some 3, []⟩ : EditorStateManager).activeEditor = some 3 ∧ (3 : Nat) ≠ 7) ∧
    ((⟨some 3, []⟩ : EditorStateManager).setActiveEditor 7).activeEditor = some 7 ∧
    ((⟨some 3, []⟩ : EditorStateManager).setActiveEditor 7).log =
      [EMAction.saved 3, EMAction.closed 3, EMAction.activated 7] :=
  ⟨⟨rfl, by decide⟩,
    (single_session_invariant ⟨some 3, []⟩ 3 7 rfl (by decide)).1,
    (single_session_invariant ⟨some 3, []⟩ 3 7 rfl (by decide)).2⟩

/-- A Select-tool toolbar with one rectangle, used by the C7 witness. -/
def c7State : Toolbar :=
  { initToolbar ['#'] 2 ['n'] [] [⟨rectTag, []⟩] with activeTool := Tool.select }

/-- C7 witness: tool isolation evaluated over a concrete pointer-event
sequence in Select mode. -/
theorem tool_isolation_witness :
    (c7State.activeTool = Tool.select ∨ c7State.activeTool = Tool.eraser) ∧
    List.Sublist
      ((runPtr c7State [PtrEvent.down (some 0) ⟨1, 2⟩, PtrEvent.up]).doc.children)
      c7State.doc.children :=
  ⟨Or.inl rfl,
    (tool_isolation c7State [PtrEvent.down (some 0) ⟨1, 2⟩, PtrEvent.up] (Or.inl rfl)).1⟩

/-- A toolbar with a selected rectangle, used by the C10 witness. -/
def c10State : Toolbar :=
  { initToolbar ['#'] 2 ['n'] [] [⟨rectTag, []⟩] with
      selectedElement := some 0,
      selectionBoxNode := some (1, selectionBoxPrim (getBBox ⟨rectTag, []⟩)),
      nextId := 2 }

/-- C10 witness: the Delete-key behavior evaluated on a concrete selected
element. -/
theorem delete_backspace_equiv_witness :
    c10State.selectedElement = some 0 ∧
    handleKeyDown c10State ⟨deleteKey, false, false, false⟩ =
      (saveToHistory (clearSelection
        { c10State with elems := c10State.elems.filter (fun x => x.1 != 0) }), true) :=
  ⟨rfl, (delete_backspace_equiv c10State).2.1 0 rfl⟩

/-! ## The polluted snapshot: select, switch to the eraser, erase

`setActiveTool` does not clear the selection and `handleEraserClick` does
not clear it either, so an eraser commit can run while the overlay
rectangle is still a child of the `svgElement`; the snapshot then
contains the overlay, and restoring it clones the overlay back in as an
ordinary child. -/

theorem natDigits_ne_quote : ∀ (fuel n : Nat), ∀ c ∈ natDigits fuel n, c ≠ '"' := by
  intro fuel
  induction fuel with
  | zero => intro n c hc; simp [natDigits] at hc
  | succ fuel ih =>
    intro n c hc
    by_cases h : n = 0
    · simp [natDigits, h] at hc
    · simp only [natDigits] at hc
      rw [if_neg h] at hc
      simp only [List.mem_append, List.mem_singleton] at hc
      rcases hc with hc | hc
      · exact ih (n / 10) c hc
      · subst hc
        have h10 : n % 10 < 10 := Nat.mod_lt _ (by norm_num)
        revert h10
        generalize n % 10 = r
        intro h10
        interval_cases r <;> decide

theorem natStr_ne_quote (n : Nat) : ∀ c ∈ natStr n, c ≠ '"' := by
  intro c hc
  unfold natStr at hc
  split at hc
  · simp only [List.mem_singleton] at hc
    subst hc
    decide
  · exact natDigits_ne_quote n n c hc

theorem ratStr_ne_quote (q : ℚ) : ∀ c ∈ ratStr q, c ≠ '"' := by
  intro c hc
  simp only [ratStr, List.append_assoc, List.mem_append] at hc
  rcases hc with hc | hc | hc
  · split at hc
    · simp only [List.mem_singleton] at hc
      subst hc
      decide
    · simp at hc
  · exact natStr_ne_quote _ c hc
  · split at hc
    · simp at hc
    · rcases List.mem_cons.mp hc with hc | hc
      · subst hc
        decide
      · exact natStr_ne_quote _ c hc

/-- The overlay rectangle is a well-formed element whatever the host
reports as the bounding box: its attribute names are fixed and its values
are numeric strings or literals, none containing a quote. -/
theorem selectionBoxPrim_WF (bbox : RectGeom) : (selectionBoxPrim bbox).WF := by
  refine ⟨(by decide : NameOK rectTag), ?_⟩
  intro a ha
  simp only [selectionBoxPrim, List.mem_cons, List.not_mem_nil, or_false] at ha
  rcases ha with h | h | h | h | h | h | h | h | h <;> subst h
  · exact ⟨(by decide : NameOK ("x".toList)), fun c hc => ratStr_ne_quote _ c hc⟩
  · exact ⟨(by decide : NameOK ("y".toList)), fun c hc => ratStr_ne_quote _ c hc⟩
  · exact ⟨(by decide : NameOK ("width".toList)), fun c hc => ratStr_ne_quote _ c hc⟩
  · exact ⟨(by decide : NameOK ("height".toList)), fun c hc => ratStr_ne_quote _ c hc⟩
  · decide
  · decide
  · decide
  · decide
  · decide

/-- Serialization is injective on well-formed documents: it round-trips
through the parser. -/
theorem serializeDoc_injOn (d1 d2 : Doc) (h1 : d1.WF) (h2 : d2.WF)
    (h : serializeDoc d1 = serializeDoc d2) : d1 = d2 := by
  have e1 := parse_serializeDoc d1 h1
  have e2 := parse_serializeDoc d2 h2
  rw [h, e2] at e1
  exact (Option.some.inj e1).symm

/-- The first rectangle of the polluted trace (the one that gets
selected). -/
def rectA : Prim := ⟨rectTag, [(['x'], ['5'])]⟩

/-- The second rectangle of the polluted trace (the one that gets
erased). -/
def rectB : Prim := ⟨rectTag, [(['x'], ['9'])]⟩

/-- The overlay rectangle appended when `rectA` is selected. -/
def pollutedOverlay : Prim := selectionBoxPrim (getBBox rectA)

/-- What the `svgElement` holds at the polluted commit: the surviving
rectangle plus the live selection overlay. -/
def pollutedSvg : Doc := ⟨[], [rectA, pollutedOverlay]⟩

/-- A reachable polluted state: starting from a document with two
rectangles, rectangle 0 is selected with the Select tool (which appends
the overlay rect to the `svgElement`), the tool is switched to the
Eraser (`setActiveTool` does not clear the selection), and rectangle 1
is erased — `handleEraserClick` pushes a history entry serializing the
`svgElement` with the live overlay still inside. -/
def pollutedState : Toolbar :=
  let s0 := { initToolbar ['#'] 2 ['n'] [] [rectA, rectB] with
    activeTool := Tool.select }
  let s1 := handleSelectClick s0 (some 0)
  let s2 := setActiveTool s1 Tool.eraser
  (handleEraserClick s2 (some 1)).1

theorem pollutedSvg_WF : pollutedSvg.WF := by
  refine ⟨?_, ?_⟩
  · intro a ha
    have ha2 : a ∈ ([] : List (Str × Str)) := ha
    simp at ha2
  · intro p hp
    have hp2 : p ∈ [rectA, pollutedOverlay] := hp
    rcases List.mem_cons.mp hp2 with h | h
    · subst h
      decide
    · have h2 : p = pollutedOverlay := by simpa using h
      subst h2
      exact selectionBoxPrim_WF _

theorem pollutedState_fields :
    pollutedState.history = [serializeDoc ⟨[], [rectA, rectB]⟩, serializeDoc pollutedSvg] ∧
    pollutedState.historyIndex = 1 ∧
    pollutedState.doc = ⟨[], [rectA]⟩ ∧
    pollutedState.svgDoc = pollutedSvg ∧
    pollutedState.rootAttrs = [] :=
  ⟨rfl, rfl, rfl, rfl, rfl⟩

/-- C1 counterexample: after select-then-erase the History Entry at the
cursor is the serialization of the full `svgElement` (overlay included)
and is NOT the serialization of the post-mutation Canvas Document: the
snapshot has two children where the Canvas Document has one. -/
theorem history_bound_counterexample :
    pollutedState.history[pollutedState.historyIndex]? =
      some (serializeDoc pollutedState.svgDoc) ∧
    pollutedState.history[pollutedState.historyIndex]? ≠
      some (serializeDoc pollutedState.doc) ∧
    pollutedState.doc.children.length = 1 ∧
    pollutedState.svgDoc.children.length = 2 := by
  refine ⟨rfl, ?_, rfl, rfl⟩
  intro h
  have h1 : pollutedState.history[pollutedState.historyIndex]? =
      some (serializeDoc pollutedState.svgDoc) := rfl
  rw [h1] at h
  have hs : serializeDoc pollutedState.svgDoc = serializeDoc pollutedState.doc :=
    Option.some.inj h
  have hdocs : pollutedState.svgDoc = pollutedState.doc :=
    serializeDoc_injOn _ _ pollutedSvg_WF (by decide) hs
  exact absurd (congrArg (fun d => d.children.length) hdocs) (by decide)

